import Mathlib

set_option maxRecDepth 4000

deriving instance DecidableEq for Except

/-!
Shallow embedding of the textrek music compiler (tt.go).

Go float64 arithmetic is modelled exactly over the rationals; Go slices of
float64 become lists of rationals; Go's fallible operations return Option or
Except; the builder's pointer-based track sharing is modelled with an explicit
heap (a list of tracks addressed by index).
-/

/-- Go float64 samples, modelled as rationals. -/
abbrev Sample := ℚ

/-- SampleBuffer is a slice of float64 samples. -/
abbrev SampleBuffer := List ℚ

/-- Go regexp character class backslash-s: tab, newline, form feed,
carriage return, space. -/
def goIsSpace (c : Char) : Bool :=
  c = ' ' || c = '\t' || c = '\n' || c = '\x0c' || c = '\r'

/-- Value of a digit string, most significant digit first. -/
def digitsToNat (ds : List Char) : ℕ :=
  ds.foldl (fun acc c => acc * 10 + (c.toNat - '0'.toNat)) 0

def allDigits (ds : List Char) : Bool := ds.all Char.isDigit

/-- Modelled from the spec: strconv.ParseFloat is a stdlib collaborator; the
spec admits "a decimal number" here (section 4.1), so we model plain decimal
literals (optional sign, integer part, optional fraction) exactly as
rationals.  Exponent or hexadecimal float syntax is not modelled. -/
def goParseFloat (cs : List Char) : Option ℚ :=
  let body : List Char :=
    match cs with
    | '-' :: rest => rest
    | '+' :: rest => rest
    | _ => cs
  let neg : Bool :=
    match cs with
    | '-' :: _ => true
    | _ => false
  let intPart := body.takeWhile Char.isDigit
  let rest := body.dropWhile Char.isDigit
  let mag : Option ℚ :=
    match rest with
    | [] =>
      if intPart = [] then none
      else some ((digitsToNat intPart : ℕ) : ℚ)
    | '.' :: frac =>
      if allDigits frac ∧ (intPart ≠ [] ∨ frac ≠ []) then
        some ((digitsToNat intPart : ℚ) + (digitsToNat frac : ℚ) / (10 ^ frac.length : ℚ))
      else none
    | _ => none
  match mag with
  | none => none
  | some m => some (if neg then -m else m)

/-- Modelled from the spec: strconv.ParseInt with base 10 (stdlib
collaborator), "a base-10 integer" (section 4.1). -/
def goParseInt (cs : List Char) : Option ℤ :=
  match cs with
  | '-' :: ds => if ds ≠ [] ∧ allDigits ds then some (-(digitsToNat ds : ℤ)) else none
  | '+' :: ds => if ds ≠ [] ∧ allDigits ds then some ((digitsToNat ds : ℤ)) else none
  | ds => if ds ≠ [] ∧ allDigits ds then some ((digitsToNat ds : ℤ)) else none

/-- Source parseFloat: split at the first slash and divide, otherwise parse a
plain value.  Note: on a zero denominator Go float division yields an
infinity, which has no rational counterpart; this model yields 0 there.  No
claim depends on a zero denominator. -/
def parseFloat (cs : List Char) : Option ℚ :=
  if cs.contains '/' then
    let nom := cs.takeWhile (fun c => c ≠ '/')
    let den := (cs.dropWhile (fun c => c ≠ '/')).drop 1
    match goParseFloat nom, goParseFloat den with
    | some n, some d => some (n / d)
    | _, _ => none
  else goParseFloat cs

/-- Source Track.  A Processor is an external collaborator (spec section 6):
it is modelled by the list of samples it contributes into the buffer, with
none standing for Go's nil processor (basicSynthFactory returns nil).  The
factory bound to the track is identified by its registry name, since every
factory in the program comes from the registry. -/
structure Track where
  factory : String
  proc : Option (List ℚ)
  clear : Bool
  data : List (Char × String)
  bpm : ℚ
  step : ℚ
  steps : ℤ
deriving DecidableEq, Inhabited, Repr

def Track.BeatsPerSecond (t : Track) : ℚ := t.bpm / 60

def Track.SamplesPerBeat (t : Track) (sr : ℤ) : ℚ := (sr : ℚ) / t.BeatsPerSecond

/-- Go conversion from float64 to int truncates toward zero. -/
def truncQ (q : ℚ) : ℤ := if 0 ≤ q then ⌊q⌋ else -⌊-q⌋

def Track.SamplesPerStep (t : Track) (sr : ℤ) : ℤ :=
  truncQ (t.SamplesPerBeat sr * t.step)

def Track.Frames (t : Track) (sr : ℤ) : ℤ := t.SamplesPerStep sr * t.steps

/-- Source basicSynthFactory: returns (nil, nil). -/
def basicSynthFactory (_args : String) : Except String (Option (List ℚ)) :=
  .ok none

/-- Source processorFactories registry: only the name "basic" is bound. -/
def lookupFactory (name : String) : Option (String → Except String (Option (List ℚ))) :=
  if name = "basic" then some basicSynthFactory else none

/-- Invoke the factory a track was created with (tracks only ever hold
registry factories, identified by name). -/
def runNamedFactory (name args : String) : Except String (Option (List ℚ)) :=
  match lookupFactory name with
  | some f => f args
  | none => .error "unknown factory"

/-- Go map assignment track.data[code] = data: keys unique, last write wins. -/
def setData (d : List (Char × String)) (c : Char) (v : String) : List (Char × String) :=
  if d.any (fun p => p.1 = c) then
    d.map (fun p => if p.1 = c then (c, v) else p)
  else d ++ [(c, v)]

/-- Builder state of processFile: the track heap models Go pointers (a
pattern holds indices into the heap, the current-track cursor is an index),
plus the in-progress song and pattern and the four process-wide globals. -/
structure BState where
  tracks : List Track
  song : List (List ℕ)
  pattern : Option (List ℕ)
  cur : Option ℕ
  bpm : ℚ
  sr : ℤ
  steps : ℤ
  step : ℚ
deriving DecidableEq, Inhabited, Repr

/-- Go: var step float64 = 1 / 4.  The initializer 1 / 4 is an untyped
integer constant division, so the stored value is 0. -/
def initStep : ℚ := ((1 / 4 : ℤ) : ℚ)

/-- Initial values of the process-wide globals (tt.go lines 17-22) together
with the empty song/pattern/track state at the start of processFile. -/
def initState : BState :=
  { tracks := [], song := [], pattern := none, cur := none,
    bpm := 120, sr := 48000, steps := 16, step := initStep }

/-- Source global nchannels = 2. -/
def nchannels : ℤ := 2

/-- Regex anchored-caret (bpm|sr|steps|step) backslash-s-plus (.+) dollar,
tried for one alternative keyword: leftmost-first with backtracking, greedy
whitespace run, and a nonempty remainder (the final dot-plus group).  When
everything after the keyword is whitespace, the greedy run backs off one
character so the capture is the last whitespace character. -/
def matchGlobalKw (kw : List Char) (cs : List Char) : Option (List Char) :=
  if cs.take kw.length = kw then
    let rest := cs.drop kw.length
    let wsRun := rest.takeWhile goIsSpace
    let after := rest.dropWhile goIsSpace
    if wsRun.length = 0 then none
    else if after ≠ [] then some after
    else if 2 ≤ wsRun.length then some (rest.drop (wsRun.length - 1))
    else none
  else none

/-- Source setGlobalPattern: returns the keyword and the captured value. -/
def matchGlobal (cs : List Char) : Option (String × List Char) :=
  match matchGlobalKw "bpm".data cs with
  | some v => some ("bpm", v)
  | none =>
    match matchGlobalKw "sr".data cs with
    | some v => some ("sr", v)
    | none =>
      match matchGlobalKw "steps".data cs with
      | some v => some ("steps", v)
      | none =>
        match matchGlobalKw "step".data cs with
        | some v => some ("step", v)
        | none => none

/-- Source setProcessorPattern, anchored: a colon or plus sign, an optional
name of non-colon characters, an optional colon followed by a nonempty
argument string.  A trailing lone colon makes the whole match fail.  Returns
(clear flag, name, args); missing groups capture the empty string. -/
def matchProcessor (cs : List Char) : Option (Bool × List Char × List Char) :=
  match cs with
  | [] => none
  | c :: rest =>
    if c = ':' ∨ c = '+' then
      let name := rest.takeWhile (fun x => x ≠ ':')
      match rest.dropWhile (fun x => x ≠ ':') with
      | [] => some (c = ':', name, [])
      | _ :: args => if args = [] then none else some (c = ':', name, args)
    else none

/-- Source setDataPattern, anchored dot then dot-plus: any line of at least
two characters, split into its first character and the rest. -/
def matchData (cs : List Char) : Option (Char × List Char) :=
  match cs with
  | c :: r :: rest => some (c, r :: rest)
  | _ => none

/-- Source emptyLinePattern, anchored backslash-s-plus: at least one
character and every character whitespace.  Note this does not match the
completely empty line. -/
def matchesEmptyLine (cs : List Char) : Bool :=
  cs ≠ [] && cs.all goIsSpace

/-- Global-setting switch (tt.go lines 123-150): parse the value and store it
into the matching global; a parse failure aborts the file. -/
def applyGlobal (s : BState) (kw : String) (v : List Char) : Except String BState :=
  if kw = "bpm" then
    match parseFloat v with
    | none => .error ("Cannot parse bpm value: " ++ String.mk v)
    | some value => .ok { s with bpm := value }
  else if kw = "sr" then
    match goParseInt v with
    | none => .error ("Cannot parse sr value: " ++ String.mk v)
    | some value => .ok { s with sr := value }
  else if kw = "steps" then
    match goParseInt v with
    | none => .error ("Cannot parse steps value: " ++ String.mk v)
    | some value => .ok { s with steps := value }
  else
    match parseFloat v with
    | none => .error ("Cannot parse step value: " ++ String.mk v)
    | some value => .ok { s with step := value }

/-- Processor directive (tt.go lines 151-192).  Empty name: reuse.  The Go
code appends the current track pointer to the pattern and then mutates that
same object in place (new processor, fresh data map, re-captured
bpm/step/steps snapshot; the clear flag is not updated).  Non-empty name:
resolve the factory, close out any open track by appending it, and create a
fresh track holding a snapshot of the current globals. -/
def applyProcessor (s : BState) (cl : Bool) (name args : String) : Except String BState :=
  if name = "" then
    match s.cur with
    | none => .error "attempt to reuse a processor which has not been defined"
    | some i =>
      let t := s.tracks.getD i default
      match runNamedFactory t.factory args with
      | .error e => .error ("cannot instantiate processor " ++ name ++ ": " ++ e)
      | .ok proc =>
        .ok { s with
          pattern := some ((s.pattern.getD []) ++ [i]),
          tracks := s.tracks.set i
            { t with proc := proc, data := [], bpm := s.bpm, step := s.step,
                     steps := s.steps } }
  else
    match lookupFactory name with
    | none => .error ("unknown processor: " ++ name)
    | some f =>
      match f args with
      | .error e => .error ("cannot instantiate processor " ++ name ++ ": " ++ e)
      | .ok proc =>
        .ok { s with
          pattern :=
            match s.cur with
            | some i => some ((s.pattern.getD []) ++ [i])
            | none => s.pattern,
          tracks := s.tracks ++
            [{ factory := name, proc := proc, clear := cl, data := [],
               bpm := s.bpm, step := s.step, steps := s.steps }],
          cur := some s.tracks.length }

/-- Data line (tt.go lines 193-199): requires an open track, stores the line
under its leading character code. -/
def applyData (s : BState) (code : Char) (dat : String) : Except String BState :=
  match s.cur with
  | none => .error "data line without track"
  | some i =>
    let t := s.tracks.getD i default
    .ok { s with tracks := s.tracks.set i { t with data := setData t.data code dat } }

/-- Close the open pattern: append it to the song and reset the pattern and
track cursors; a no-op when no pattern is open.  This is the duplicated
blank-line / end-of-input code (tt.go lines 200-206 and 211-215). -/
def closePattern (s : BState) : BState :=
  match s.pattern with
  | some p => { s with song := s.song ++ [p], pattern := none, cur := none }
  | none => s

/-- One iteration of the processFile scanner loop over a line's characters,
in the source's dispatch order: song reset, global setting, processor
directive, data line, whitespace-only line; any line matching nothing is
ignored.  (The song-end line is handled by the loop driver.) -/
def stepChars (s : BState) (cs : List Char) : Except String BState :=
  if cs = ">>".data then
    .ok { s with song := [], pattern := none, cur := none }
  else
    match matchGlobal cs with
    | some kv => applyGlobal s kv.1 kv.2
    | none =>
      match matchProcessor cs with
      | some m => applyProcessor s m.1 (String.mk m.2.1) (String.mk m.2.2)
      | none =>
        match matchData cs with
        | some cd => applyData s cd.1 (String.mk cd.2)
        | none =>
          if matchesEmptyLine cs then .ok (closePattern s)
          else .ok s

def stepLine (s : BState) (line : String) : Except String BState :=
  stepChars s line.data

/-- The scanner loop: process lines in order, stopping at the song-end
line. -/
def runLines : BState → List String → Except String BState
  | s, [] => .ok s
  | s, l :: ls =>
    if l.data = "<<".data then .ok s
    else
      match stepLine s l with
      | .error e => .error e
      | .ok s' => runLines s' ls

/-- Build the song model for a file: run the scanner loop from the initial
globals, then close any pattern left open at end of input. -/
def buildState (lines : List String) : Except String BState :=
  (runLines initState lines).map closePattern

/-- SampleBuffer.Clear: zero every element in place (length unchanged). -/
def sbClear (buf : List ℚ) : List ℚ := buf.map (fun _ => 0)

/-- Elementwise addition of two sample lists, keeping the longer tail. -/
def addSamples : List ℚ → List ℚ → List ℚ
  | [], ys => ys
  | xs, [] => xs
  | x :: xs, y :: ys => (x + y) :: addSamples xs ys

/-- Modelled from the spec: a Processor is an external collaborator whose
process(track, buffer) "writes/adds samples into the given buffer" (spec
sections 4.4 and 6); it is modelled as adding the processor's contribution
elementwise into the buffer, extending it when the contribution is longer.
A nil processor (as returned by basicSynthFactory) would fault when invoked,
modelled as none. -/
def runProc : Option (List ℚ) → List ℚ → Option (List ℚ)
  | none, _ => none
  | some c, buf => some (addSamples buf c)

/-- Per-pattern track loop (tt.go lines 221-230): zero the scratch buffer at
a clearing track's turn, render the track, and keep the maximum frame count
seen so far. -/
def mixTracks (sr : ℤ) : List Track → List ℚ → ℤ → Option (List ℚ × ℤ)
  | [], samples, pf => some (samples, pf)
  | t :: ts, samples, pf =>
    match runProc t.proc (if t.clear then sbClear samples else samples) with
    | none => none
    | some buf =>
      mixTracks sr ts buf (if t.Frames sr > pf then t.Frames sr else pf)

/-- Render one pattern into a fresh scratch buffer, returning the scratch
samples and the realized pattern frame count. -/
def mixPattern (sr : ℤ) (pat : List Track) : Option (List ℚ × ℤ) :=
  mixTracks sr pat [] 0

/-- slices.Grow(s, n) increases the slice's capacity but leaves its length
and contents unchanged, so its observable value is s itself. -/
def slicesGrow (s : List ℚ) (_n : ℕ) : List ℚ := s

/-- The additive write loop (tt.go lines 232-234): songSamples[pos+i] +=
samples[i] for each scratch index i.  Indexing outside the song buffer's
length is a Go runtime panic, modelled as none; with an empty scratch buffer
the loop body never runs. -/
def writeAdd (song : List ℚ) (pos : ℤ) (samples : List ℚ) : Option (List ℚ) :=
  if samples.length = 0 then some song
  else if 0 ≤ pos ∧ pos.toNat + samples.length ≤ song.length then
    some (song.take pos.toNat ++ addSamples (song.drop pos.toNat) samples)
  else none

/-- One iteration of the song mixing loop (tt.go lines 218-236): render the
pattern, grow the song buffer, additively write the scratch samples at the
write offset, then advance the write offset by the realized frame count times
the channel count. -/
def mixStep (sr nch : ℤ) (st : List ℚ × ℤ) (pat : List Track) : Option (List ℚ × ℤ) :=
  match mixPattern sr pat with
  | none => none
  | some sp =>
    match writeAdd (slicesGrow st.1 sp.1.length) st.2 sp.1 with
    | none => none
    | some song => some (song, st.2 + sp.2 * nch)

/-- The whole mixing loop over a song's patterns, starting from an empty song
buffer and write offset 0. -/
def mixSong (sr nch : ℤ) (patterns : List (List Track)) : Option (List ℚ × ℤ) :=
  patterns.foldl
    (fun acc pat =>
      match acc with
      | none => none
      | some st => mixStep sr nch st pat)
    (some ([], 0))

/-- The realized frame count of a pattern: the maximum of its tracks' frame
counts, starting from 0. -/
def realizedFrames (sr : ℤ) (pat : List Track) : ℤ :=
  pat.foldl (fun m t => if t.Frames sr > m then t.Frames sr else m) 0

/-! Theorems about the embedding. -/

/-- Helper: a successful global-setting line changes only the four globals;
the track heap, song, pattern and track cursor are untouched. -/
theorem applyGlobal_keeps {s : BState} {kw : String} {v : List Char} {s' : BState}
    (h : applyGlobal s kw v = .ok s') :
    s'.tracks = s.tracks ∧ s'.song = s.song ∧ s'.pattern = s.pattern
      ∧ s'.cur = s.cur := by
  unfold applyGlobal at h
  repeat' split at h
  all_goals first
    | (cases h; exact ⟨rfl, rfl, rfl, rfl⟩)
    | exact absurd h (by simp)

/-- Helper: a successful data line changes only the track heap. -/
theorem applyData_keeps {s : BState} {c : Char} {d : String} {s' : BState}
    (h : applyData s c d = .ok s') :
    s'.song = s.song ∧ s'.pattern = s.pattern ∧ s'.cur = s.cur := by
  unfold applyData at h
  split at h
  · exact absurd h (by simp)
  · cases h; exact ⟨rfl, rfl, rfl⟩

/-- Helper: a processor directive processed while no track is open leaves
the song and the pattern unchanged (the new track only becomes the
cursor). -/
theorem applyProcessor_no_cur {s : BState} {cl : Bool} {name args : String}
    {s' : BState} (hc : s.cur = none) (h : applyProcessor s cl name args = .ok s') :
    s'.song = s.song ∧ s'.pattern = s.pattern := by
  unfold applyProcessor at h
  rw [hc] at h
  dsimp only at h
  split at h
  · exact absurd h (by simp)
  · repeat' split at h
    all_goals first
      | (cases h; exact ⟨rfl, rfl⟩)
      | exact absurd h (by simp)

/-- Helper: a successfully processed line that is not a processor directive
keeps an absent pattern absent and an empty song empty, and keeps an absent
track cursor absent. -/
theorem stepLine_non_proc {s s' : BState} {l : String}
    (hp : s.pattern = none) (hsong : s.song = [])
    (hm : matchProcessor l.data = none)
    (h : stepLine s l = .ok s') :
    s'.pattern = none ∧ s'.song = [] ∧ (s.cur = none → s'.cur = none) := by
  unfold stepLine stepChars at h
  by_cases h1 : l.data = ">>".data
  · rw [if_pos h1] at h
    cases h
    exact ⟨rfl, rfl, fun _ => rfl⟩
  · rw [if_neg h1] at h
    cases hg : matchGlobal l.data with
    | some kv =>
      rw [hg] at h
      dsimp only at h
      obtain ⟨_, hs2, hp2, hc2⟩ := applyGlobal_keeps h
      exact ⟨hp2.trans hp, hs2.trans hsong, fun hc => hc2.trans hc⟩
    | none =>
      rw [hg] at h
      dsimp only at h
      rw [hm] at h
      dsimp only at h
      cases hd : matchData l.data with
      | some cd =>
        rw [hd] at h
        dsimp only at h
        obtain ⟨hs2, hp2, hc2⟩ := applyData_keeps h
        exact ⟨hp2.trans hp, hs2.trans hsong, fun hc => hc2.trans hc⟩
      | none =>
        rw [hd] at h
        dsimp only at h
        have hcp : closePattern s = s := by unfold closePattern; rw [hp]
        split at h
        · rw [hcp] at h
          cases h
          exact ⟨hp, hsong, fun hc => hc⟩
        · cases h
          exact ⟨hp, hsong, fun hc => hc⟩

/-- Helper: any successfully processed line from a state with no open
pattern, empty song and no open track keeps the pattern absent and the song
empty. -/
theorem stepLine_no_cur {s s' : BState} {l : String}
    (hp : s.pattern = none) (hsong : s.song = []) (hc : s.cur = none)
    (h : stepLine s l = .ok s') :
    s'.pattern = none ∧ s'.song = [] := by
  unfold stepLine stepChars at h
  by_cases h1 : l.data = ">>".data
  · rw [if_pos h1] at h
    cases h
    exact ⟨rfl, rfl⟩
  · rw [if_neg h1] at h
    cases hg : matchGlobal l.data with
    | some kv =>
      rw [hg] at h
      dsimp only at h
      obtain ⟨_, hs2, hp2, _⟩ := applyGlobal_keeps h
      exact ⟨hp2.trans hp, hs2.trans hsong⟩
    | none =>
      rw [hg] at h
      dsimp only at h
      cases hpr : matchProcessor l.data with
      | some m =>
        rw [hpr] at h
        dsimp only at h
        obtain ⟨hs2, hp2⟩ := applyProcessor_no_cur hc h
        exact ⟨hp2.trans hp, hs2.trans hsong⟩
      | none =>
        rw [hpr] at h
        dsimp only at h
        cases hd : matchData l.data with
        | some cd =>
          rw [hd] at h
          dsimp only at h
          obtain ⟨hs2, hp2, _⟩ := applyData_keeps h
          exact ⟨hp2.trans hp, hs2.trans hsong⟩
        | none =>
          rw [hd] at h
          dsimp only at h
          have hcp : closePattern s = s := by unfold closePattern; rw [hp]
          split at h
          · rw [hcp] at h
            cases h
            exact ⟨hp, hsong⟩
          · cases h
            exact ⟨hp, hsong⟩

/-- Weight of the current-track cursor: one binding already open or none. -/
def curWeight (s : BState) : ℕ :=
  if s.cur = none then 0 else 1

/-- Helper: running the scanner loop from a state with no open pattern, an
empty song, and at most one track binding in total (counting an already open
track cursor as one), ends with no open pattern and an empty song: a single
track binding never reaches the pattern. -/
theorem runLines_single_binding :
    ∀ (ls : List String) (s s' : BState),
      s.pattern = none → s.song = [] →
      ls.countP (fun l => (matchProcessor l.data).isSome) + curWeight s ≤ 1 →
      runLines s ls = .ok s' →
      s'.pattern = none ∧ s'.song = [] := by
  intro ls
  induction ls with
  | nil =>
    intro s s' hp hsong _ h
    unfold runLines at h
    cases h
    exact ⟨hp, hsong⟩
  | cons l ls ih =>
    intro s s' hp hsong hb h
    unfold runLines at h
    split at h
    · cases h
      exact ⟨hp, hsong⟩
    · cases hs1 : stepLine s l with
      | error e => rw [hs1] at h; exact absurd h (by simp)
      | ok s1 =>
        rw [hs1] at h
        cases hpr : matchProcessor l.data with
        | some m =>
          have hw1 : (l :: ls).countP (fun x => (matchProcessor x.data).isSome)
              = ls.countP (fun x => (matchProcessor x.data).isSome) + 1 := by
            rw [List.countP_cons]
            simp [hpr]
          rw [hw1] at hb
          cases hsc : s.cur with
          | some i =>
            have hw : curWeight s = 1 := by simp [curWeight, hsc]
            rw [hw] at hb
            omega
          | none =>
            have hw : curWeight s = 0 := by simp [curWeight, hsc]
            rw [hw] at hb
            obtain ⟨hp1, hsong1⟩ := stepLine_no_cur hp hsong hsc hs1
            refine ih s1 s' hp1 hsong1 ?_ h
            have hcw : curWeight s1 ≤ 1 := by
              unfold curWeight
              split
              · omega
              · omega
            omega
        | none =>
          have hw1 : (l :: ls).countP (fun x => (matchProcessor x.data).isSome)
              = ls.countP (fun x => (matchProcessor x.data).isSome) := by
            rw [List.countP_cons]
            simp [hpr]
          rw [hw1] at hb
          obtain ⟨hp1, hsong1, hcur1⟩ := stepLine_non_proc hp hsong hpr hs1
          refine ih s1 s' hp1 hsong1 ?_ h
          cases hsc : s.cur with
          | none =>
            have hws1 : curWeight s1 = 0 := by simp [curWeight, hcur1 hsc]
            have hws : curWeight s = 0 := by simp [curWeight, hsc]
            omega
          | some i =>
            have hws : curWeight s = 1 := by simp [curWeight, hsc]
            have hcw : curWeight s1 ≤ 1 := by
              unfold curWeight
              split
              · omega
              · omega
            omega

/-- C1: the claim says the song-level buffer is enlarged before the additive
writes so that every write at writeOffset + i is in bounds.  In the code,
slices.Grow only increases capacity and leaves the length unchanged, so for
any pattern whose scratch buffer is non-empty the very first write indexes
past the end of the song buffer: mixing a one-pattern song whose single
clearing track contributes one sample faults (modelled as none). -/
theorem c1_grow_write_out_of_range :
    mixSong 48000 2 [[⟨"basic", some [1/2], true, [], 120, 1, 16⟩]] = none := by
  rfl

/-- C2: rendering a pattern whose first track clears and contributes
[0.1, 0.2] and whose second track accumulates and contributes [0.05, 0.05]
yields the scratch buffer [0.15, 0.25]: the buffer is zeroed only at the
clearing track's turn and the later additive track adds onto the first
track's contribution. -/
theorem c2_clear_accumulate_mix :
    (mixPattern 48000
        [⟨"basic", some [1/10, 1/5], true, [], 120, 1/4, 16⟩,
         ⟨"basic", some [1/20, 1/20], false, [], 120, 1/4, 16⟩]).map Prod.fst
      = some [3/20, 1/4] := by
  with_unfolding_all decide

/-- C3: the claim says a reuse directive appends a new, distinct track slot
and leaves previously appended tracks' data and snapshots unchanged.  In the
code the reuse appends the same track pointer and then mutates that object in
place.  Evaluating the builder on bpm 120, :basic, a data line, a reuse,
another data line, bpm 140, and a second reuse: the pattern holds the same
heap index twice, and the single underlying track now carries bpm 140 and an
empty data map, so the previously appended slot's snapshot and data were
changed by the reuse. -/
theorem c3_reuse_mutates_aliased_track :
    (runLines initState ["bpm 120", ":basic", "aXX", "+", "bYY", "bpm 140", "+"]).map
        (fun s => (s.pattern, s.tracks.map (fun t => (t.bpm, t.data))))
      = .ok (some [0, 0], [(140, [])]) := by
  decide

/-- C4: the claim says every blank or whitespace-only line closes the open
pattern, a completely empty line in particular.  In the code the
whitespace-line regexp requires at least one whitespace character, so the
empty line matches nothing and is ignored (the pattern stays open), and a
whitespace-only line of two or more characters is captured by the data-line
pattern first (an error when no track is open). -/
theorem c4_empty_line_not_separator :
    runLines initState [":basic", "+", ""] = runLines initState [":basic", "+"]
    ∧ (runLines initState [":basic", "+"]).map BState.pattern = .ok (some [0])
    ∧ runLines initState ["  "] = .error "data line without track" :=
  ⟨rfl, rfl, rfl⟩

/-- C5: for every track snapshot with bpm > 0, step > 0, steps at least 0 and
sample rate sr > 0, the frame count equals floor(sr / (bpm / 60) * step) *
steps, with the truncation applied once at the samples-per-step boundary, and
the result is non-negative. -/
theorem c5_frames_formula (t : Track) (srv : ℤ)
    (hb : 0 < t.bpm) (hs : 0 < t.step) (hsr : 0 < srv) (hst : 0 ≤ t.steps) :
    t.Frames srv = ⌊(srv : ℚ) / (t.bpm / 60) * t.step⌋ * t.steps
    ∧ 0 ≤ t.Frames srv := by
  have hsr' : (0 : ℚ) < (srv : ℚ) := by exact_mod_cast hsr
  have hq : 0 ≤ (srv : ℚ) / (t.bpm / 60) * t.step := by positivity
  have he : t.Frames srv = ⌊(srv : ℚ) / (t.bpm / 60) * t.step⌋ * t.steps := by
    unfold Track.Frames Track.SamplesPerStep Track.SamplesPerBeat
      Track.BeatsPerSecond truncQ
    rw [if_pos hq]
  refine ⟨he, ?_⟩
  rw [he]
  exact mul_nonneg (Int.floor_nonneg.mpr hq) hst

/-- Witness for C5 at a concrete track: bpm 120, step 1/4, 16 steps, sample
rate 48000, giving 6000 samples per step and 96000 frames. -/
theorem c5_frames_formula_witness :
    Track.Frames ⟨"basic", none, true, [], 120, 1/4, 16⟩ 48000
        = ⌊((48000 : ℤ) : ℚ) / ((120 : ℚ) / 60) * ((1 : ℚ)/4)⌋ * 16
    ∧ 0 ≤ Track.Frames ⟨"basic", none, true, [], 120, 1/4, 16⟩ 48000 :=
  c5_frames_formula ⟨"basic", none, true, [], 120, 1/4, 16⟩ 48000
    (by norm_num) (by norm_num) (by norm_num) (by norm_num)

/-- C6: a track's bpm/step/steps snapshot is captured when the track is bound
and no later global-setting directive alters any stored track: processing any
line matched by the global-setting pattern leaves the track heap unchanged;
and after bpm 120, bind track A, bpm 140, bind track B, the heap holds A with
bpm 120 and B with bpm 140. -/
theorem c6_global_settings_never_touch_tracks :
    (∀ (s : BState) (l : String) (s' : BState),
        (matchGlobal l.data).isSome = true → stepLine s l = .ok s' →
        s'.tracks = s.tracks)
    ∧ (runLines initState ["bpm 120", ":basic", "bpm 140", ":basic"]).map
        (fun s => s.tracks.map Track.bpm) = .ok [120, 140] := by
  constructor
  · intro s l s' hm hstep
    unfold stepLine stepChars at hstep
    by_cases h1 : l.data = ">>".data
    · rw [h1] at hm
      exact absurd hm (by decide)
    · rw [if_neg h1] at hstep
      cases hg : matchGlobal l.data with
      | none => rw [hg] at hm; simp at hm
      | some kv =>
        rw [hg] at hstep
        exact (applyGlobal_keeps hstep).1
  · decide

/-- Witness for C6: processing bpm 140 over a state holding one track bound
at bpm 120 leaves the track heap unchanged. -/
theorem c6_witness :
    (⟨[⟨"basic", none, true, [], 120, 0, 16⟩], [], none, some 0,
        140, 48000, 16, 0⟩ : BState).tracks
      = (⟨[⟨"basic", none, true, [], 120, 0, 16⟩], [], none, some 0,
        120, 48000, 16, 0⟩ : BState).tracks :=
  c6_global_settings_never_touch_tracks.1
    ⟨[⟨"basic", none, true, [], 120, 0, 16⟩], [], none, some 0, 120, 48000, 16, 0⟩
    "bpm 140"
    ⟨[⟨"basic", none, true, [], 120, 0, 16⟩], [], none, some 0, 140, 48000, 16, 0⟩
    (by decide) (by decide)

/-- Helper for C7: the second component threaded through the per-pattern
track loop is the running maximum of the tracks' frame counts. -/
theorem mixTracks_frames (srv : ℤ) :
    ∀ (ts : List Track) (buf : List ℚ) (pf : ℤ) (res : List ℚ × ℤ),
      mixTracks srv ts buf pf = some res →
      res.2 = ts.foldl (fun m t => if t.Frames srv > m then t.Frames srv else m) pf := by
  intro ts
  induction ts with
  | nil =>
    intro buf pf res h
    simp only [mixTracks, Option.some.injEq] at h
    rw [← h]
    rfl
  | cons t ts ih =>
    intro buf pf res h
    simp only [mixTracks] at h
    cases hr : runProc t.proc (if t.clear then sbClear buf else buf) with
    | none => rw [hr] at h; exact absurd h (by simp)
    | some buf' =>
      rw [hr] at h
      simpa using ih buf' _ res h

/-- C7: after each successfully mixed pattern the song-level write offset
advances by exactly the pattern's realized frame count (the maximum of its
tracks' frame counts) times the channel count, independent of the scratch
buffer's raw sample length. -/
theorem c7_write_offset_advance (srv nch : ℤ) (st : List ℚ × ℤ) (pat : List Track)
    (res : List ℚ × ℤ) (h : mixStep srv nch st pat = some res) :
    res.2 = st.2 + realizedFrames srv pat * nch := by
  unfold mixStep at h
  cases hmp : mixPattern srv pat with
  | none => rw [hmp] at h; exact absurd h (by simp)
  | some sp =>
    rw [hmp] at h
    dsimp only at h
    cases hw : writeAdd (slicesGrow st.1 sp.1.length) st.2 sp.1 with
    | none => rw [hw] at h; exact absurd h (by simp)
    | some song =>
      rw [hw] at h
      dsimp only at h
      injection h with h2
      subst h2
      have hf := mixTracks_frames srv pat [] 0 sp hmp
      show st.2 + sp.2 * nch = st.2 + realizedFrames srv pat * nch
      unfold realizedFrames
      rw [← hf]

/-- Witness for C7: a pattern realizing 4 frames with 2 channels advances the
write offset from 0 to 8 (the scratch buffer held 0 raw samples). -/
theorem c7_write_offset_advance_witness :
    (( [], (8 : ℤ)) : List ℚ × ℤ).2
      = ((( [], (0 : ℤ)) : List ℚ × ℤ)).2
        + realizedFrames 1 [⟨"basic", some [], true, [], 60, 1, 4⟩] * 2 :=
  c7_write_offset_advance 1 2 ([], 0) [⟨"basic", some [], true, [], 60, 1, 4⟩]
    ([], 8) (by with_unfolding_all decide)

/-- C8: the song-reset line discards the in-progress song, pattern and track
cursor of every state while leaving the four process-wide globals unchanged;
and a file of a valid pattern, a reset, and a different valid pattern builds
a song holding only the second pattern. -/
theorem c8_song_reset :
    (∀ s : BState,
        stepLine s ">>" = .ok { s with song := [], pattern := none, cur := none })
    ∧ (buildState [":basic", "+", ">>", ":basic", "+"]).map BState.song = .ok [[1]] :=
  ⟨fun _ => rfl, rfl⟩

/-- Witness for C8 at the initial state. -/
theorem c8_song_reset_witness :
    stepLine initState ">>"
      = .ok { initState with song := [], pattern := none, cur := none } :=
  c8_song_reset.1 initState

/-- C9: closing a pattern (separator line or end of input) never appends the
open track cursor: for every input holding at most one processor directive
the built song is empty, and two processor directives build the song whose
only pattern holds only the first track (the second, still open, track is
discarded). -/
theorem c9_open_track_discarded :
    (∀ (ls : List String) (s' : BState),
        ls.countP (fun l => (matchProcessor l.data).isSome) ≤ 1 →
        buildState ls = .ok s' → s'.song = [])
    ∧ (buildState [":basic", ":basic"]).map BState.song = .ok [[0]] := by
  constructor
  · intro ls s' hcount h
    unfold buildState at h
    cases hr : runLines initState ls with
    | error e => rw [hr] at h; exact absurd h (by simp [Except.map])
    | ok s0 =>
      rw [hr] at h
      obtain ⟨hp0, hsong0⟩ :=
        runLines_single_binding ls initState s0 rfl rfl
          (by simpa [curWeight, initState] using hcount) hr
      have hcp : closePattern s0 = s0 := by unfold closePattern; rw [hp0]
      simp only [Except.map, hcp] at h
      cases h
      exact hsong0
  · rfl

/-- Witness for C9: the single-directive file yields the heap-only state with
an empty song. -/
theorem c9_open_track_discarded_witness :
    (⟨[⟨"basic", none, true, [], 120, 0, 16⟩], [], none, some 0,
        120, 48000, 16, 0⟩ : BState).song = [] :=
  c9_open_track_discarded.1 [":basic"]
    ⟨[⟨"basic", none, true, [], 120, 0, 16⟩], [], none, some 0, 120, 48000, 16, 0⟩
    (by decide) (by decide)

/-- C10: the process-wide default step length is initialized by the integer
constant expression 1 / 4 and therefore equals 0, so every track whose
snapshot carries the default step length has 0 samples per step and
contributes 0 frames. -/
theorem c10_default_step_zero :
    initStep = 0 ∧ initState.step = initStep ∧
    ∀ (srv : ℤ) (t : Track), 0 < t.bpm → t.step = initStep →
      t.SamplesPerStep srv = 0 ∧ t.Frames srv = 0 := by
  refine ⟨by decide, rfl, ?_⟩
  intro srv t _hb hstep
  have h0 : t.step = 0 := by rw [hstep]; decide
  have hs : t.SamplesPerStep srv = 0 := by
    unfold Track.SamplesPerStep
    rw [h0, mul_zero]
    unfold truncQ
    simp
  exact ⟨hs, by unfold Track.Frames; rw [hs, zero_mul]⟩

/-- Witness for C10 at a track bound under the default step length. -/
theorem c10_default_step_zero_witness :
    Track.SamplesPerStep ⟨"basic", none, true, [], 120, initStep, 16⟩ 48000 = 0
    ∧ Track.Frames ⟨"basic", none, true, [], 120, initStep, 16⟩ 48000 = 0 :=
  c10_default_step_zero.2.2 48000 ⟨"basic", none, true, [], 120, initStep, 16⟩
    (by norm_num) rfl
